import Mathlib

/-!
Verification of the Velu sqlite task-queue engine: a shallow embedding of
`services/queue/sqlite_queue.py`, the worker loop of `services/worker/main.py`,
the dispatcher of `services/queue/worker_entry.py` and the `POST /tasks`
handler of `services/app_server/main.py`, together with theorems settling the
specification's claims about them.
-/

namespace Velu

/-- JSON values, the wire/storage data model of the queue
(payload and result columns, handler outputs). -/
inductive Json where
  | null : Json
  | bool : Bool → Json
  | num : Int → Json
  | str : String → Json
  | arr : List Json → Json
  | obj : List (String × Json) → Json

/-- Job status strings of `services/queue/sqlite_queue.py`. -/
inductive Status where
  | queued
  | in_progress
  | done
  | error
  deriving DecidableEq

/-- One row of the `jobs` table (schema of `DDL_JOBS` plus the optional
columns added by `_migrate`). -/
structure Job where
  id : Int
  task : String
  payload : Json
  status : Status
  result : Option Json
  attempts : Int
  priority : Int
  next_run_at : Option Int
  last_error : Option String

/-- Python truthiness on JSON values (`bool(x)` for the decoded value):
`None`, `False`, `0`, `""`, `[]`, `{}` are falsy. -/
def pyFalsy : Json → Bool
  | .null => true
  | .bool b => !b
  | .num n => n == 0
  | .str s => s == ""
  | .arr xs => xs.isEmpty
  | .obj kvs => kvs.isEmpty

/-- A Python value handed to `finish`: either a Python `str` (which
`_normalize_result_for_storage` tries to parse as JSON) or any other
Python value, represented by the JSON value `json.dumps` would serialise
it to. -/
inductive PyVal where
  | str : String → PyVal
  | json : Json → PyVal

namespace sqlite_queue

/-- AUTOINCREMENT id assignment: one more than the largest id in the table
(0 when the table is empty, so the first id is 1). -/
def nextId (db : List Job) : Int :=
  (db.foldr (fun j m => max m j.id) 0) + 1

/-- `enqueue` (`sqlite_queue.py` lines 135-169), keyword path: normalises a
falsy payload to `{}`, raises `ValueError` on an empty task, and inserts a
row with `status='queued'`, `attempts=0`, and
`next_run_at = int(not_before) if not_before else None` — a falsy
`not_before` (absent or 0) stores NULL. -/
def enqueue (task : String) (payload : Json) (priority : Int)
    (not_before : Option Int) (db : List Job) :
    Except String (List Job × Int) :=
  let payload' := if pyFalsy payload then Json.obj [] else payload
  if task = "" then .error "enqueue: 'task' must be provided"
  else
    let nid := nextId db
    let nr : Option Int := match not_before with
      | none => none
      | some n => if n == 0 then none else some n
    .ok (db ++ [⟨nid, task, payload', .queued, none, 0, priority, nr, none⟩], nid)

/-- Eligibility filter of the `dequeue` SELECT:
`status='queued' AND (next_run_at IS NULL OR next_run_at <= now)`. -/
def eligible (now : Int) (j : Job) : Bool :=
  j.status == .queued &&
    (match j.next_run_at with
     | none => true
     | some t => t ≤ now)

/-- `ORDER BY priority DESC, id`: `better a b` holds when row `a` sorts
strictly before row `b`. -/
def better (a b : Job) : Bool :=
  b.priority < a.priority || (a.priority == b.priority && a.id < b.id)

/-- First row of the ordered scan: fold keeping the best row so far. -/
def pick : Option Job → List Job → Option Job
  | acc, [] => acc
  | none, j :: rest => pick (some j) rest
  | some a, j :: rest => pick (some (if better j a then j else a)) rest

/-- The `SELECT id ... WHERE eligible ORDER BY priority DESC, id LIMIT 1`
of `dequeue`: the extremal eligible row, if any. -/
def selectJob (now : Int) (db : List Job) : Option Job :=
  pick none (db.filter (eligible now))

/-- Row count of the conditional
`UPDATE jobs SET status='in_progress' WHERE id=? AND status='queued'`. -/
def claimCount (jid : Int) (db : List Job) : Nat :=
  (db.filter (fun j => j.id == jid && j.status == Status.queued)).length

/-- Effect of the conditional claim UPDATE on the table. -/
def applyClaim (jid : Int) (db : List Job) : List Job :=
  db.map fun j =>
    if j.id == jid && j.status == Status.queued
    then { j with status := .in_progress } else j

/-- `dequeue` (`sqlite_queue.py` lines 172-198) split over the snapshot
`db1` seen by the SELECT and the snapshot `db2` seen by the conditional
UPDATE; in the real code both run inside one `BEGIN IMMEDIATE` transaction,
so `db1 = db2`, but the split lets the lost-race branch
(`updated.rowcount == 0` → return `None`) be stated faithfully. -/
def dequeueFrom (now : Int) (db1 db2 : List Job) : Option Int × List Job :=
  match selectJob now db1 with
  | none => (none, db2)
  | some j =>
      let db3 := applyClaim j.id db2
      if claimCount j.id db2 = 0 then (none, db3) else (some j.id, db3)

/-- `dequeue` as executed: SELECT and UPDATE see the same snapshot. -/
def dequeue (now : Int) (db : List Job) : Option Int × List Job :=
  dequeueFrom now db db

/-- The record `load` (`sqlite_queue.py` lines 201-218) returns: `none`
models the empty dict for an unknown id; the payload is decoded and a falsy
decode is replaced by `{}` (`_json_loads_maybe(...) or {}`). -/
def load (jid : Int) (db : List Job) : Option Job :=
  (db.find? (fun r => r.id == jid)).map fun r =>
    { r with payload := if pyFalsy r.payload then Json.obj [] else r.payload }

/-- `_normalize_result_for_storage` (`sqlite_queue.py` lines 115-124) at the
level of the decoded JSON value finally held by the `result` column.
`parse` models `json.loads` on Python strings: a string that parses is
stored verbatim (so the column decodes to its parse), a string that does
not parse is wrapped as `{"ok": true, "data": <string>}`, and every
non-string value is `json.dumps`-ed verbatim — objects and non-objects
alike. -/
def normalize_result_for_storage (parse : String → Option Json) :
    PyVal → Json
  | .str s =>
      match parse s with
      | some v => v
      | none => Json.obj [("ok", .bool true), ("data", .str s)]
  | .json v => v

/-- `finish` (`sqlite_queue.py` lines 221-234): unconditional
`UPDATE jobs SET status='done', result=?, next_run_at=NULL WHERE id=?`. -/
def finish (parse : String → Option Json) (jid : Int) (result : PyVal)
    (db : List Job) : List Job :=
  db.map fun j =>
    if j.id == jid
    then { j with status := .done,
                  result := some (normalize_result_for_storage parse result),
                  next_run_at := none }
    else j

/-- `_next_delay` (`sqlite_queue.py` lines 127-132). `jq` models the draw
of `random.uniform(0, 0.25 * delay)` (always non-negative, at most a
quarter of the base delay); `int()` on the non-negative sum is the floor. -/
def next_delay (retryBase : Int) (attempts : Int) (jq : ℚ) : Int :=
  ⌊((max 1 retryBase * 2 ^ (max 0 attempts).toNat : Int) : ℚ) + jq⌋

/-- The error envelope `fail` stores on a terminal failure. -/
def errEnvelope (message : String) (attempts : Int) : Json :=
  .obj [("ok", .bool false), ("error", .str message), ("attempts", .num attempts)]

/-- `fail` (`sqlite_queue.py` lines 237-271): reads the row's `attempts`
(0 when the id is unknown), increments it, and either terminally errors the
job (`new_attempts >= max(1, SQLQ_MAX_ATTEMPTS)`) or requeues it with
`next_run_at = now + _next_delay(attempts_prev)`. Both UPDATEs are
unconditional on status. -/
def fail (maxAttempts retryBase nowt : Int) (jq : ℚ) (jid : Int)
    (message : String) (db : List Job) : List Job :=
  let attempts : Int :=
    match db.find? (fun r => r.id == jid) with
    | some r => r.attempts
    | none => 0
  let newAttempts := attempts + 1
  if max 1 maxAttempts ≤ newAttempts then
    db.map fun j =>
      if j.id == jid
      then { j with status := .error,
                    result := some (errEnvelope message newAttempts),
                    attempts := newAttempts,
                    last_error := some message,
                    next_run_at := none }
      else j
  else
    let delay := next_delay retryBase attempts jq
    db.map fun j =>
      if j.id == jid
      then { j with status := .queued,
                    attempts := newAttempts,
                    last_error := some message,
                    next_run_at := some (nowt + delay) }
      else j

end sqlite_queue

/-- One of the four queue mutators, for stating invariants over arbitrary
operation sequences: `enqueue`, `dequeue`, `finish`, `fail` with their
call-site arguments. -/
inductive Op where
  | enq : String → Json → Int → Option Int → Op
  | deq : Int → Op
  | fin : (String → Option Json) → Int → PyVal → Op
  | flr : Int → Int → Int → ℚ → Int → String → Op

/-- Effect of one queue operation on the table (an `enqueue` that raises
leaves the table unchanged). -/
def applyOp : Op → List Job → List Job
  | .enq t p prio nb, db =>
      match sqlite_queue.enqueue t p prio nb db with
      | .ok (db', _) => db'
      | .error _ => db
  | .deq now, db => (sqlite_queue.dequeue now db).2
  | .fin parse jid r, db => sqlite_queue.finish parse jid r db
  | .flr maxA base now jq jid msg, db => sqlite_queue.fail maxA base now jq jid msg db

/-- Run a sequence of queue operations left to right. -/
def runOps : List Op → List Job → List Job
  | [], db => db
  | op :: rest, db => runOps rest (applyOp op db)

namespace worker

/-- `int(payload.get("fail_times", 1))` in `_task_fail_n`
(`services/worker/main.py` lines 96-102); the default is 1, and the jobs
this claim is about always store a JSON number there. -/
def getFailTimes (p : Json) : Int :=
  match p with
  | .obj kvs =>
      match kvs.lookup "fail_times" with
      | some (.num n) => n
      | _ => 1
  | _ => 1

/-- `_task_fail_n` (`services/worker/main.py` lines 96-102): raises
`RuntimeError` while the record's `attempts` is below `fail_times`, then
succeeds. The error string is the message `main`'s except-block passes to
`fail` (`f"{type(e).__name__}: {e}"`). -/
def task_fail_n (rec : Job) : Except String Json :=
  let want := getFailTimes rec.payload
  let a := rec.attempts
  if a < want then
    .error ("RuntimeError: simulated failure " ++ toString (a + 1) ++ "/" ++ toString want)
  else
    .ok (.obj [("ok", .bool true),
               ("message", .str ("passed after " ++ toString a ++ " failures"))])

/-- The tail of one worker-loop iteration (`services/worker/main.py` lines
236-243): a result returned by `process_job` goes to `finish` —
unconditionally, whatever its `ok` field holds — and a raised exception
goes to `fail` with the formatted message. -/
def handleOutcome (parse : String → Option Json) (maxA base nowt : Int)
    (jq : ℚ) (jid : Int) : Except String Json → List Job → List Job
  | .ok r, db => sqlite_queue.finish parse jid (.json r) db
  | .error e, db => sqlite_queue.fail maxA base nowt jq jid e db

/-- One full worker-loop iteration on a table of `fail_n` jobs:
`dequeue`, `load`, `_task_fail_n`, then `finish`/`fail`. -/
def attemptCycle (maxA base nowt : Int) (jq : ℚ) (db : List Job) : List Job :=
  match sqlite_queue.dequeue nowt db with
  | (none, db') => db'
  | (some jid, db') =>
      match sqlite_queue.load jid db' with
      | none => db'
      | some rec => handleOutcome (fun _ => none) maxA base nowt jq jid (task_fail_n rec) db'

/-- The earliest wallclock instant at which every job of the table is past
its `next_run_at`; the worker's poll loop reaches it by sleeping. -/
def readyTime (db : List Job) : Int :=
  db.foldr (fun j acc => max acc (j.next_run_at.getD 0)) 0

/-- `n` worker-loop iterations, each run once the wallclock has passed every
scheduled `next_run_at` (`jq i` is the jitter drawn in iteration `i`). -/
def runCycles (maxA base : Int) (jq : Nat → ℚ) : Nat → List Job → List Job
  | 0, db => db
  | n + 1, db => runCycles maxA base jq n (attemptCycle maxA base (readyTime db) (jq n) db)

end worker

namespace worker_entry

/-- ASCII case folding of Python's `str.lower` (task names are ASCII). -/
def asciiLower (c : Char) : Char :=
  if 'A' ≤ c ∧ c ≤ 'Z' then Char.ofNat (c.toNat + 32) else c

/-- Python `str.lower`. -/
def pyLower (s : String) : String := String.mk (s.data.map asciiLower)

/-- Whitespace stripped by Python `str.strip`. -/
def isPySpace (c : Char) : Bool := c == ' ' || c == '\t' || c == '\n' || c == '\r'

/-- Python `str.strip`. -/
def pyStrip (s : String) : String :=
  String.mk (((s.data.dropWhile isPySpace).reverse.dropWhile isPySpace).reverse)

/-- A task handler `fn(name, payload)`; a raised exception is the
`error` case carrying `str(e)`. -/
def Handler := String → Json → Except String Json

/-- `_unknown` (`services/agents.py` lines 22-26): the registered sentinel
handler. -/
def unknown_handler (name : String) (payload : Json) : Json :=
  .obj [("ok", .bool false), ("error", .str ("unknown task: " ++ name)),
        ("data", payload)]

/-- `if not isinstance(out, dict): out = {"data": out}` in `_dispatch`. -/
def ensureDictOut : Json → List (String × Json)
  | .obj kvs => kvs
  | v => [("data", v)]

/-- Python dict-literal merge `{**base, **ext}`: base keys in order with
`ext`'s value when overridden, then `ext`'s new keys in order. -/
def dictUnion (base ext : List (String × Json)) : List (String × Json) :=
  base.map (fun kv => (kv.1, (ext.lookup kv.1).getD kv.2)) ++
    ext.filter (fun kv => (base.lookup kv.1).isNone)

/-- `_dispatch` (`services/queue/worker_entry.py` lines 91-107) over an
abstract registry `reg` (the `HANDLERS` map): lowercase+strip the name;
an unregistered name yields the inline envelope
`{ok: false, agent: null, error: "unknown task: <name>", data: {}}`
without invoking any handler; a handler exception is trapped into
`{ok: false, agent: name, error: str(e), data: {}}`; a successful call
returns `{"ok": True, "agent": name, **out}`. -/
def dispatch (reg : String → Option Handler) (task_name : String)
    (payload : Json) : Json :=
  let name := pyStrip (pyLower task_name)
  match reg name with
  | none =>
      .obj [("ok", .bool false), ("agent", .null),
            ("error", .str ("unknown task: " ++ name)), ("data", .obj [])]
  | some h =>
      match h name payload with
      | .ok out =>
          .obj (dictUnion [("ok", .bool true), ("agent", .str name)] (ensureDictOut out))
      | .error e =>
          .obj [("ok", .bool false), ("agent", .str name), ("error", .str e),
                ("data", .obj [])]

/-- Modelled from the claim's words (spec §4.4), for comparison with
`dispatch`: resolve the handler, *falling back to the `unknown` sentinel
handler when the name is unregistered*, then invoke it through the same
trap and merge as `dispatch`. -/
def dispatchSpecFallback (reg : String → Option Handler) (task_name : String)
    (payload : Json) : Json :=
  let name := pyStrip (pyLower task_name)
  let h : Handler := (reg name).getD (fun n p => .ok (unknown_handler n p))
  match h name payload with
  | .ok out =>
      .obj (dictUnion [("ok", .bool true), ("agent", .str name)] (ensureDictOut out))
  | .error e =>
      .obj [("ok", .bool false), ("agent", .str name), ("error", .str e),
            ("data", .obj [])]

end worker_entry

namespace app_server

/-- `post_task` (`services/app_server/main.py` lines 162-202), reduced to
the enqueue path the claim is about (size guard, ring append and JSONL log
elided): `task = str(item.get("task") or "").strip()` — no defaulting of an
empty task — then, when `TASK_DB` is configured, `enqueue` is called; an
exception raised by `enqueue` (empty task) escapes the handler and surfaces
as HTTP 500. Returns (HTTP status, job_id if any, resulting table). -/
def post_task (taskDbSet : Bool) (item_task : Option String)
    (item_payload : Json) (db : List Job) : Nat × Option Int × List Job :=
  let task := worker_entry.pyStrip (item_task.getD "")
  let payload := if pyFalsy item_payload then Json.obj [] else item_payload
  if taskDbSet then
    match sqlite_queue.enqueue task payload 0 none db with
    | .ok (db', jid) => (200, some jid, db')
    | .error _ => (500, none, db)
  else (200, none, db)

end app_server

/-- The claim's spec-side `lower(trim(t))`, spelled with the Python string
operations, for comparison with what `enqueue` actually stores. -/
def claimTaskNorm (t : String) : String :=
  worker_entry.pyLower (worker_entry.pyStrip t)

/-- The payload `{"fail_times": k}` of a `fail_n` job. -/
def failPayload (k : Int) : Json := .obj [("fail_times", .num k)]

/-- A freshly enqueued `fail_n` job with id 1 (the single-job table the
retry scenario starts from). -/
def failN_job0 (k : Int) : Job :=
  ⟨1, "fail_n", failPayload k, .queued, none, 0, 0, none, none⟩

/-- The message `fail` receives when `_task_fail_n` raises at `attempts = a`
(`f"{type(e).__name__}: {e}"`). -/
def failMsg (k a : Int) : String :=
  "RuntimeError: simulated failure " ++ toString (a + 1) ++ "/" ++ toString k

/-- The success result `_task_fail_n` returns at `attempts = a`. -/
def okObj (a : Int) : Json :=
  .obj [("ok", .bool true), ("message", .str ("passed after " ++ toString a ++ " failures"))]

/-- The `fail_n` job with id 1 after `a` recorded failures, back in the
queue awaiting its next attempt. -/
def failN_mid (k a : Int) (res : Option Json) (nr : Option Int)
    (le : Option String) : Job :=
  ⟨1, "fail_n", failPayload k, .queued, res, a, 0, nr, le⟩

/-- The `fail_n` job with id 1 after its handler finally succeeded at
`attempts = k`: `finish` leaves `attempts` untouched at `k`. -/
def failN_done (k : Int) (le : Option String) : Job :=
  ⟨1, "fail_n", failPayload k, .done, some (okObj k), k, 0, none, le⟩

/-- The `fail_n` job with id 1 after its third straight failure under
`MAX_ATTEMPTS = 3`: terminally errored with the third failure's
envelope. -/
def failN_err (k : Int) : Job :=
  ⟨1, "fail_n", failPayload k, .error,
    some (sqlite_queue.errEnvelope (failMsg k 2) 3), 3, 0, none,
    some (failMsg k 2)⟩

/-- The `done`-row invariant of the spec: a finished job carries no
schedule. -/
def doneInv (db : List Job) : Prop :=
  ∀ j ∈ db, j.status = .done → j.next_run_at = none

/-- A queued priority-0 job with id 1 (concrete witness data). -/
def jobA : Job := ⟨1, "a", .obj [], .queued, none, 0, 0, none, none⟩

/-- A queued priority-5 job with id 2 (concrete witness data). -/
def jobB : Job := ⟨2, "b", .obj [], .queued, none, 0, 5, none, none⟩

/-- An `in_progress` job with id 1 (concrete witness data: a job a worker
has just claimed). -/
def jobP : Job := ⟨1, "t", .obj [], .in_progress, none, 0, 0, none, none⟩

/-- A terminally failed job with id 1 (concrete witness data). -/
def jobErr : Job := ⟨1, "t", .obj [], .error, none, 0, 0, none, none⟩

/-- Whether a JSON value is an object. -/
def isObj : Json → Bool
  | .obj _ => true
  | _ => false

/-- A concrete `json.loads` oracle: parses exactly the text `"[1]"`. -/
def parseW : String → Option Json :=
  fun s => if s == "[1]" then some (.arr [.num 1]) else none

/-- A registry holding only the `unknown` sentinel, as
`services/agents.py` guarantees after startup. -/
def regW : String → Option worker_entry.Handler :=
  fun n => if n == "unknown"
    then some (fun nm pl => .ok (worker_entry.unknown_handler nm pl))
    else none

/-- A registry whose single handler returns the bare number 7. -/
def regOk : String → Option worker_entry.Handler :=
  fun _ => some (fun _ _ => .ok (.num 7))

/-- A registry whose single handler always raises. -/
def regErr : String → Option worker_entry.Handler :=
  fun _ => some (fun _ _ => .error "boom")

namespace sqlite_queue

lemma better_irrefl (a : Job) : better a a = false := by
  simp [better]

lemma better_trans {a b c : Job} (h1 : better a b = true) (h2 : better b c = true) :
    better a c = true := by
  simp only [better, Bool.or_eq_true, Bool.and_eq_true, decide_eq_true_eq,
    beq_iff_eq] at h1 h2 ⊢
  omega

lemma better_neg_trans {a b c : Job} (h1 : better a b = false) (h2 : better b c = false) :
    better a c = false := by
  simp only [better, Bool.or_eq_false_iff, Bool.and_eq_false_iff,
    decide_eq_false_iff_not, beq_eq_false_iff_ne, ne_eq] at h1 h2 ⊢
  omega

lemma pick_eq_some {l : List Job} {acc : Option Job} {r : Job}
    (h : pick acc l = some r) : acc = some r ∨ r ∈ l := by
  induction l generalizing acc with
  | nil =>
    left
    cases acc with
    | none => simp [pick] at h
    | some a => simpa [pick] using h
  | cons j rest ih =>
    match acc with
    | none =>
      rcases ih h with h' | h'
      · exact Or.inr (by simp [Option.some.injEq] at h'; simp [h'])
      · exact Or.inr (List.mem_cons_of_mem _ h')
    | some a =>
      rcases ih h with h' | h'
      · simp only [Option.some.injEq] at h'
        by_cases hb : better j a = true
        · simp [hb] at h'; simp [h']
        · simp [hb] at h'; exact Or.inl (by simp [h'])
      · exact Or.inr (List.mem_cons_of_mem _ h')

lemma pick_best {l : List Job} {acc : Option Job} {r : Job}
    (h : pick acc l = some r) :
    (∀ a, acc = some a → better a r = false) ∧ ∀ x ∈ l, better x r = false := by
  induction l generalizing acc with
  | nil =>
    refine ⟨fun a ha => ?_, by simp⟩
    rw [ha] at h
    simp only [pick, Option.some.injEq] at h
    subst h
    exact better_irrefl a
  | cons j rest ih =>
    match acc with
    | none =>
      have hsj : pick (some j) rest = some r := h
      have := ih hsj
      refine ⟨by simp, fun x hx => ?_⟩
      rcases List.mem_cons.mp hx with rfl | hx'
      · exact this.1 x rfl
      · exact this.2 x hx'
    | some a =>
      have hsa : pick (some (if better j a then j else a)) rest = some r := h
      have := ih hsa
      have hkept := this.1 _ rfl
      by_cases hb : better j a = true
      · rw [if_pos hb] at hkept
        have haR : better a r = false := by
          by_cases har : better a r = true
          · exact absurd (better_trans hb har) (by simp [hkept])
          · simpa using har
        refine ⟨fun a' ha' => by cases ha'; exact haR, fun x hx => ?_⟩
        rcases List.mem_cons.mp hx with rfl | hx'
        · exact hkept
        · exact this.2 x hx'
      · have hb' : better j a = false := by simpa using hb
        rw [if_neg hb] at hkept
        refine ⟨fun a' ha' => by cases ha'; exact hkept, fun x hx => ?_⟩
        rcases List.mem_cons.mp hx with rfl | hx'
        · exact better_neg_trans hb' hkept
        · exact this.2 x hx'

lemma pick_none_eq_none {l : List Job} (h : pick none l = none) : l = [] := by
  cases l with
  | nil => rfl
  | cons j rest =>
    exfalso
    simp only [pick] at h
    induction rest generalizing j with
    | nil => simp [pick] at h
    | cons x xs ih => exact ih _ h

lemma selectJob_mem {now : Int} {db : List Job} {j : Job}
    (h : selectJob now db = some j) : j ∈ db ∧ eligible now j = true := by
  have := pick_eq_some h
  rcases this with h' | h'
  · cases h'
  · exact List.mem_filter.mp h'

lemma selectJob_best {now : Int} {db : List Job} {j : Job}
    (h : selectJob now db = some j) :
    ∀ x ∈ db, eligible now x = true → better x j = false := by
  intro x hx helig
  exact (pick_best h).2 x (List.mem_filter.mpr ⟨hx, helig⟩)

lemma selectJob_none {now : Int} {db : List Job}
    (h : selectJob now db = none) : ∀ x ∈ db, eligible now x = false := by
  intro x hx
  have hfilter : db.filter (eligible now) = [] := by
    cases hsel : db.filter (eligible now) with
    | nil => rfl
    | cons a rest =>
      exfalso
      unfold selectJob at h
      rw [hsel] at h
      cases hpick : pick none (a :: rest) with
      | none => exact absurd (pick_none_eq_none hpick) (by simp)
      | some r => rw [hpick] at h; cases h
  by_cases he : eligible now x = true
  · exact absurd (List.mem_filter.mpr ⟨hx, he⟩) (by rw [hfilter]; simp)
  · simpa using he

lemma applyClaim_of_no_match {jid : Int} : ∀ {db : List Job},
    (∀ a ∈ db, (a.id == jid && a.status == Status.queued) = false) →
    applyClaim jid db = db
  | [], _ => rfl
  | x :: xs, h => by
      have hrest := applyClaim_of_no_match
        (fun a ha => h a (List.mem_cons_of_mem _ ha))
      unfold applyClaim at hrest ⊢
      simp only [List.map_cons]
      rw [h x (List.mem_cons_self x xs)]
      simp only [Bool.false_eq_true, if_false]
      rw [hrest]

lemma applyClaim_no_match {jid : Int} {db : List Job}
    (h : claimCount jid db = 0) : applyClaim jid db = db := by
  unfold claimCount at h
  rw [List.length_eq_zero] at h
  have hall := List.filter_eq_nil_iff.mp h
  exact applyClaim_of_no_match fun a ha => by simpa using hall a ha

lemma claimCount_pos {jid : Int} {db : List Job} {j : Job}
    (hj : j ∈ db) (hid : j.id = jid) (hst : j.status = .queued) :
    claimCount jid db ≠ 0 := by
  unfold claimCount
  intro h
  rw [List.length_eq_zero] at h
  have := List.filter_eq_nil_iff.mp h j hj
  simp [hid, hst] at this

lemma mem_foldr_max {db : List Job} {j : Job} (hj : j ∈ db) :
    j.id ≤ db.foldr (fun j m => max m j.id) 0 := by
  induction db with
  | nil => cases hj
  | cons x xs ih =>
    rcases List.mem_cons.mp hj with rfl | h'
    · simp [List.foldr_cons]
    · calc j.id ≤ xs.foldr (fun j m => max m j.id) 0 := ih h'
        _ ≤ max (xs.foldr (fun j m => max m j.id) 0) x.id := le_max_left _ _

lemma find?_append_of_none {p : Job → Bool} {l₁ l₂ : List Job}
    (h : ∀ x ∈ l₁, p x = false) :
    (l₁ ++ l₂).find? p = l₂.find? p := by
  induction l₁ with
  | nil => rfl
  | cons x xs ih =>
    have hx := h x (List.mem_cons_self x xs)
    simp only [List.cons_append, List.find?, hx]
    exact ih fun a ha => h a (List.mem_cons_of_mem _ ha)

lemma find?_map_id_pred {f : Job → Job} (hf : ∀ x, (f x).id = x.id)
    (db : List Job) (jid : Int) :
    (db.map f).find? (fun x => x.id == jid) =
      (db.find? (fun x => x.id == jid)).map f := by
  induction db with
  | nil => rfl
  | cons x xs ih =>
    simp only [List.map_cons, List.find?]
    rw [hf x]
    cases h : (x.id == jid) with
    | true => rfl
    | false => exact ih

lemma eligible_status {now : Int} {j : Job} (h : eligible now j = true) :
    j.status = .queued := by
  unfold eligible at h
  simp only [Bool.and_eq_true, beq_iff_eq] at h
  exact h.1

lemma better_eq_false_iff {x j : Job} :
    better x j = false ↔
      x.priority < j.priority ∨ (x.priority = j.priority ∧ j.id ≤ x.id) := by
  simp only [better, Bool.or_eq_false_iff, Bool.and_eq_false_iff,
    decide_eq_false_iff_not, beq_eq_false_iff_ne, ne_eq]
  omega

end sqlite_queue

open sqlite_queue in
/-- C1: for every table state, `dequeue` returns the id of a `queued` job
whose `next_run_at` is null or ≤ now, chosen with the highest priority and,
within equal priority, the lowest id, flipping exactly the claimed rows to
`in_progress`; when no eligible job exists it returns `None` and leaves the
table unchanged; and whenever the conditional claim update affects zero
rows (the lost-race branch), it returns `None` and no job's status
changes. -/
theorem dequeue_claims_best_eligible (now : Int) (db : List Job) :
    (∀ jid db', dequeue now db = (some jid, db') →
      (∃ j ∈ db, j.id = jid ∧ eligible now j = true ∧
        ∀ x ∈ db, eligible now x = true →
          x.priority < j.priority ∨ (x.priority = j.priority ∧ j.id ≤ x.id)) ∧
      db' = applyClaim jid db) ∧
    (∀ db', dequeue now db = (none, db') →
      db' = db ∧ ∀ x ∈ db, eligible now x = false) ∧
    (∀ db2 j, selectJob now db = some j → claimCount j.id db2 = 0 →
      dequeueFrom now db db2 = (none, db2)) := by
  refine ⟨?_, ?_, ?_⟩
  · intro jid db' h
    unfold dequeue dequeueFrom at h
    cases hsel : selectJob now db with
    | none => rw [hsel] at h; cases h
    | some j =>
      rw [hsel] at h
      dsimp only at h
      obtain ⟨hmem, helig⟩ := selectJob_mem hsel
      have hcnt : claimCount j.id db ≠ 0 :=
        claimCount_pos hmem rfl (eligible_status helig)
      rw [if_neg hcnt] at h
      injection h with h1 h2
      injection h1 with h1
      cases h1
      refine ⟨⟨j, hmem, rfl, helig, fun x hx hex => ?_⟩, h2.symm⟩
      exact better_eq_false_iff.mp (selectJob_best hsel x hx hex)
  · intro db' h
    unfold dequeue dequeueFrom at h
    cases hsel : selectJob now db with
    | none =>
      rw [hsel] at h
      injection h with h1 h2
      exact ⟨h2.symm, selectJob_none hsel⟩
    | some j =>
      rw [hsel] at h
      dsimp only at h
      obtain ⟨hmem, helig⟩ := selectJob_mem hsel
      have hcnt : claimCount j.id db ≠ 0 :=
        claimCount_pos hmem rfl (eligible_status helig)
      rw [if_neg hcnt] at h
      injection h with h1 _
      cases h1
  · intro db2 j hsel hcnt
    unfold dequeueFrom
    rw [hsel]
    dsimp only
    rw [if_pos hcnt, applyClaim_no_match hcnt]

namespace sqlite_queue

lemma next_delay_bounds {base a : Int} {jq : ℚ} (ha : 0 ≤ a) (h0 : 0 ≤ jq)
    (h1 : jq ≤ ((max 1 base * 2 ^ a.toNat : Int) : ℚ) / 4) :
    (max 1 base * 2 ^ a.toNat : Int) ≤ next_delay base a jq ∧
      ((next_delay base a jq : Int) : ℚ) ≤
        5 / 4 * ((max 1 base * 2 ^ a.toNat : Int) : ℚ) := by
  unfold next_delay
  rw [max_eq_right ha]
  constructor
  · exact Int.le_floor.mpr (by linarith)
  · have hfl := Int.floor_le (((max 1 base * 2 ^ a.toNat : Int) : ℚ) + jq)
    have : ((max 1 base * 2 ^ a.toNat : Int) : ℚ) + jq ≤
        5 / 4 * ((max 1 base * 2 ^ a.toNat : Int) : ℚ) := by linarith
    exact le_trans hfl this

end sqlite_queue

open sqlite_queue in
/-- C2: for an existing job, `fail` increments `attempts` by exactly one;
if the new value reaches `MAX_ATTEMPTS` it errors the job terminally with
the `{"ok": false, "error": message, "attempts": new}` envelope, sets
`last_error` and clears `next_run_at`; otherwise it requeues the job with
`last_error` set and `next_run_at = now + d` for a delay `d` in
`[base·2^attempts_prev, 1.25·base·2^attempts_prev]`, where the effective
base is `max(1, SQLQ_RETRY_BASE_SEC) ≥ 1`. -/
theorem fail_increments_and_backs_off (maxA base nowt : Int) (jq : ℚ)
    (jid : Int) (msg : String) (db : List Job) (j : Job)
    (hfind : db.find? (fun r => r.id == jid) = some j)
    (hatt : 0 ≤ j.attempts)
    (hj0 : 0 ≤ jq)
    (hj1 : jq ≤ ((max 1 base * 2 ^ j.attempts.toNat : Int) : ℚ) / 4) :
    (maxA ≤ j.attempts + 1 →
      fail maxA base nowt jq jid msg db = db.map fun r =>
        if r.id == jid
        then { r with status := .error,
                      result := some (errEnvelope msg (j.attempts + 1)),
                      attempts := j.attempts + 1,
                      last_error := some msg,
                      next_run_at := none }
        else r) ∧
    (j.attempts + 1 < maxA →
      ∃ d : Int, (max 1 base * 2 ^ j.attempts.toNat : Int) ≤ d ∧
        ((d : Int) : ℚ) ≤ 5 / 4 * ((max 1 base * 2 ^ j.attempts.toNat : Int) : ℚ) ∧
        fail maxA base nowt jq jid msg db = db.map fun r =>
          if r.id == jid
          then { r with status := .queued,
                        attempts := j.attempts + 1,
                        last_error := some msg,
                        next_run_at := some (nowt + d) }
          else r) := by
  constructor
  · intro hterm
    unfold fail
    rw [hfind]
    dsimp only
    rw [if_pos (by omega : max 1 maxA ≤ j.attempts + 1)]
  · intro htrans
    obtain ⟨hd1, hd2⟩ := next_delay_bounds hatt hj0 hj1
    refine ⟨next_delay base j.attempts jq, hd1, hd2, ?_⟩
    unfold fail
    rw [hfind]
    dsimp only
    rw [if_neg (by omega : ¬ max 1 maxA ≤ j.attempts + 1)]

open sqlite_queue in
/-- Witness for C2: a first failure of a fresh job (attempts 0) with
`MAX_ATTEMPTS = 3`, base 2, zero jitter is requeued with a delay of
exactly `2 = 2·2^0` seconds. -/
theorem fail_increments_and_backs_off_witness :
    ∃ d : Int, (max 1 2 * 2 ^ (0 : Int).toNat : Int) ≤ d ∧
      ((d : Int) : ℚ) ≤ 5 / 4 * ((max 1 2 * 2 ^ (0 : Int).toNat : Int) : ℚ) ∧
      fail 3 2 100 0 1 "boom" [jobA] = [jobA].map fun r =>
        if r.id == 1
        then { r with status := .queued,
                      attempts := jobA.attempts + 1,
                      last_error := some "boom",
                      next_run_at := some (100 + d) }
        else r :=
  (fail_increments_and_backs_off 3 2 100 0 1 "boom" [jobA] jobA rfl
    (by norm_num [jobA]) (by norm_num) (by norm_num [jobA])).2 (by norm_num [jobA])

open sqlite_queue in
/-- Witness for C1: on a two-job table the higher-priority job (id 2) is
claimed; on an empty table `dequeue` returns `None`; and a lost race
(conditional update over a snapshot with no matching queued row) returns
`None` without changing any job. -/
theorem dequeue_claims_best_eligible_witness :
    ((∃ j ∈ [jobA, jobB], j.id = 2 ∧ eligible 10 j = true ∧
        ∀ x ∈ [jobA, jobB], eligible 10 x = true →
          x.priority < j.priority ∨ (x.priority = j.priority ∧ j.id ≤ x.id)) ∧
      applyClaim 2 [jobA, jobB] = applyClaim 2 [jobA, jobB]) ∧
    (([] : List Job) = [] ∧ ∀ x ∈ ([] : List Job), eligible 5 x = false) ∧
    dequeueFrom 7 [jobA] [] = (none, []) :=
  ⟨(dequeue_claims_best_eligible 10 [jobA, jobB]).1 2 (applyClaim 2 [jobA, jobB]) rfl,
   (dequeue_claims_best_eligible 5 []).2.1 [] rfl,
   (dequeue_claims_best_eligible 7 [jobA]).2.2 [] jobA rfl rfl⟩

open sqlite_queue in
/-- C10: an `enqueue` with `not_before = 0` (or absent) stores a NULL
`next_run_at` — not the epoch timestamp 0 — so the job is eligible for
`dequeue` at every wallclock instant, and on an empty table is claimed at
once; only a non-zero `not_before` produces a scheduled `next_run_at`. -/
theorem enqueue_falsy_not_before_immediately_eligible
    (t : String) (p : Json) (prio : Int) (db : List Job) (now : Int)
    (ht : t ≠ "") :
    (∃ j, enqueue t p prio (some 0) db = .ok (db ++ [j], nextId db) ∧
      j.id = nextId db ∧ j.next_run_at = none ∧ eligible now j = true) ∧
    (∀ n : Int, n ≠ 0 →
      ∃ j₂, enqueue t p prio (some n) db = .ok (db ++ [j₂], nextId db) ∧
        j₂.next_run_at = some n) ∧
    (∀ db₁ nid, enqueue t p prio (some 0) [] = .ok (db₁, nid) →
      (dequeue now db₁).1 = some nid) := by
  refine ⟨?_, ?_, ?_⟩
  · refine ⟨⟨nextId db, t, if pyFalsy p then Json.obj [] else p, .queued, none, 0,
      prio, none, none⟩, ?_, rfl, rfl, rfl⟩
    unfold enqueue
    rw [if_neg ht]
    rfl
  · intro n hn
    refine ⟨⟨nextId db, t, if pyFalsy p then Json.obj [] else p, .queued, none, 0,
      prio, some n, none⟩, ?_, rfl⟩
    unfold enqueue
    rw [if_neg ht]
    dsimp only
    have hb : (n == 0) = false := by simpa using hn
    rw [hb]
    simp
  · intro db₁ nid h
    unfold enqueue at h
    rw [if_neg ht] at h
    injection h with h'
    injection h' with h1 h2
    subst h1
    subst h2
    rfl

open sqlite_queue in
/-- Witness for C10 at `t = "t"`, `p = {}`, empty table, `now = 0`. -/
theorem enqueue_falsy_not_before_witness :
    (∃ j, enqueue "t" (Json.obj []) 0 (some 0) [] = .ok ([] ++ [j], nextId []) ∧
      j.id = nextId [] ∧ j.next_run_at = none ∧ eligible 0 j = true) ∧
    (∀ n : Int, n ≠ 0 →
      ∃ j₂, enqueue "t" (Json.obj []) 0 (some n) [] = .ok ([] ++ [j₂], nextId []) ∧
        j₂.next_run_at = some n) ∧
    (∀ db₁ nid, enqueue "t" (Json.obj []) 0 (some 0) [] = .ok (db₁, nid) →
      (dequeue 0 db₁).1 = some nid) :=
  enqueue_falsy_not_before_immediately_eligible "t" (Json.obj []) 0 [] 0 (by decide)

namespace sqlite_queue

lemma doneInv_map_update {db : List Job} (h : doneInv db) (f : Job → Job)
    (hf : ∀ a, f a = a ∨ (f a).status ≠ .done ∨ (f a).next_run_at = none) :
    doneInv (db.map f) := by
  intro x hx hst
  obtain ⟨a, ha, rfl⟩ := List.mem_map.mp hx
  rcases hf a with h1 | h1 | h1
  · rw [h1] at hst ⊢; exact h a ha hst
  · exact absurd hst h1
  · exact h1

lemma dequeue_snd (now : Int) (db : List Job) :
    (dequeue now db).2 = db ∨ ∃ jid, (dequeue now db).2 = applyClaim jid db := by
  unfold dequeue dequeueFrom
  cases hsel : selectJob now db with
  | none => left; rfl
  | some j =>
    right
    refine ⟨j.id, ?_⟩
    dsimp only
    split <;> rfl

lemma doneInv_applyClaim {db : List Job} (jid : Int) (h : doneInv db) :
    doneInv (applyClaim jid db) := by
  unfold applyClaim
  refine doneInv_map_update h _ fun a => ?_
  by_cases hc : (a.id == jid && a.status == Status.queued) = true
  · rw [if_pos hc]; exact Or.inr (Or.inl (by simp))
  · rw [if_neg hc]; exact Or.inl rfl

lemma doneInv_finish {db : List Job} (parse : String → Option Json)
    (jid : Int) (r : PyVal) (h : doneInv db) :
    doneInv (finish parse jid r db) := by
  unfold finish
  refine doneInv_map_update h _ fun a => ?_
  by_cases hc : (a.id == jid) = true
  · rw [if_pos hc]; exact Or.inr (Or.inr rfl)
  · rw [if_neg hc]; exact Or.inl rfl

lemma doneInv_fail {db : List Job} (maxA base nowt : Int) (jq : ℚ)
    (jid : Int) (msg : String) (h : doneInv db) :
    doneInv (fail maxA base nowt jq jid msg db) := by
  unfold fail
  dsimp only
  split
  · refine doneInv_map_update h _ fun a => ?_
    by_cases hc : (a.id == jid) = true
    · rw [if_pos hc]; exact Or.inr (Or.inl (by simp))
    · rw [if_neg hc]; exact Or.inl rfl
  · refine doneInv_map_update h _ fun a => ?_
    by_cases hc : (a.id == jid) = true
    · rw [if_pos hc]; exact Or.inr (Or.inl (by simp))
    · rw [if_neg hc]; exact Or.inl rfl

lemma doneInv_enqueue {db db' : List Job} {t : String} {p : Json}
    {prio : Int} {nb : Option Int} {nid : Int} (h : doneInv db)
    (henq : enqueue t p prio nb db = .ok (db', nid)) : doneInv db' := by
  unfold enqueue at henq
  by_cases ht : t = ""
  · rw [if_pos ht] at henq; cases henq
  · rw [if_neg ht] at henq
    dsimp only at henq
    injection henq with h'
    injection h' with h1 _
    subst h1
    intro x hx hst
    rcases List.mem_append.mp hx with hin | hin
    · exact h x hin hst
    · rw [List.mem_singleton] at hin
      subst hin
      exact absurd hst (by simp)

end sqlite_queue

lemma doneInv_applyOp {db : List Job} (h : doneInv db) (op : Op) :
    doneInv (applyOp op db) := by
  cases op with
  | enq t p prio nb =>
    cases henq : sqlite_queue.enqueue t p prio nb db with
    | ok pr =>
      obtain ⟨db', nid⟩ := pr
      dsimp only [applyOp]
      rw [henq]
      exact sqlite_queue.doneInv_enqueue h henq
    | error e =>
      dsimp only [applyOp]
      rw [henq]
      exact h
  | deq now =>
    show doneInv (sqlite_queue.dequeue now db).2
    rcases sqlite_queue.dequeue_snd now db with h1 | ⟨jid, h1⟩
    · rw [h1]; exact h
    · rw [h1]; exact sqlite_queue.doneInv_applyClaim jid h
  | fin parse jid r => exact sqlite_queue.doneInv_finish parse jid r h
  | flr maxA base nowt jq jid msg =>
    exact sqlite_queue.doneInv_fail maxA base nowt jq jid msg h

lemma doneInv_runOps {db : List Job} (h : doneInv db) (ops : List Op) :
    doneInv (runOps ops db) := by
  induction ops generalizing db with
  | nil => exact h
  | cons op rest ih => exact ih (doneInv_applyOp h op)

open sqlite_queue in
/-- C4 (amended): `finish` stores a string result verbatim when it parses
as JSON and wraps a non-parsing string as `{"ok": true, "data": s}`, but
stores every non-string value — object or not — verbatim as its JSON
serialisation; and every job that is `done` after any sequence of queue
operations has a null `next_run_at`. -/
theorem finish_normalization_and_done_rows (parse : String → Option Json) :
    (∀ v : Json, normalize_result_for_storage parse (.json v) = v) ∧
    (∀ s v, parse s = some v →
      normalize_result_for_storage parse (.str s) = v) ∧
    (∀ s, parse s = none → normalize_result_for_storage parse (.str s) =
      Json.obj [("ok", .bool true), ("data", .str s)]) ∧
    (∀ ops db, doneInv db → doneInv (runOps ops db)) := by
  refine ⟨fun v => rfl, fun s v hs => ?_, fun s hs => ?_, fun ops db h => doneInv_runOps h ops⟩
  · dsimp only [normalize_result_for_storage]
    rw [hs]
  · dsimp only [normalize_result_for_storage]
    rw [hs]

open sqlite_queue in
/-- Witness for C4: the oracle parsing exactly `"[1]"`, with a parsing
string, a non-parsing string, and a one-`finish` operation sequence. -/
theorem finish_normalization_and_done_rows_witness :
    normalize_result_for_storage parseW (.str "[1]") = .arr [.num 1] ∧
    normalize_result_for_storage parseW (.str "xyz") =
      Json.obj [("ok", .bool true), ("data", .str "xyz")] ∧
    doneInv (runOps [Op.fin parseW 1 (.json .null)] [jobP]) :=
  ⟨(finish_normalization_and_done_rows parseW).2.1 "[1]" (.arr [.num 1]) rfl,
   (finish_normalization_and_done_rows parseW).2.2.1 "xyz" rfl,
   (finish_normalization_and_done_rows parseW).2.2.2 [Op.fin parseW 1 (.json .null)]
     [jobP] (fun j hj hst => by
       rw [List.mem_singleton] at hj
       subst hj
       exact absurd hst (by simp [jobP]))⟩

open sqlite_queue in
/-- Counterexample for C4 as stated: `finish` with the JSON array `[1, 2]`
stores the array verbatim — the `done` row's result is not a JSON object
and not the wrapped `{"ok": true, "data": [1, 2]}`. -/
theorem finish_normalization_cex :
    finish (fun _ => none) 1 (.json (.arr [.num 1, .num 2])) [jobP] =
      [⟨1, "t", .obj [], .done, some (.arr [.num 1, .num 2]), 0, 0, none, none⟩] ∧
    isObj (.arr [.num 1, .num 2]) = false ∧
    Json.arr [.num 1, .num 2] ≠
      Json.obj [("ok", .bool true), ("data", .arr [.num 1, .num 2])] :=
  ⟨rfl, rfl, fun h => Json.noConfusion h⟩

open sqlite_queue in
/-- C5 (amended): `done` and `error` rows are terminal with respect to
`dequeue`, which never touches them; but `finish` and `fail` update rows
unconditionally by id — `finish` sets any matching job to `done` and `fail`
to `error` or `queued` whatever its current status — so the four listed
transitions are exhaustive only for the worker's discipline of calling
`finish`/`fail` on jobs it has just claimed. -/
theorem terminal_rows_and_unconditional_updates :
    (∀ now db (j : Job), j ∈ db → (j.status = .done ∨ j.status = .error) →
      j ∈ (dequeue now db).2) ∧
    (∀ parse jid (r : PyVal) db (j : Job), j ∈ db → j.id = jid →
      { j with status := Status.done,
               result := some (normalize_result_for_storage parse r),
               next_run_at := none } ∈ finish parse jid r db) ∧
    (∀ maxA base nowt (jq : ℚ) jid msg db (j : Job), j ∈ db → j.id = jid →
      ∃ j' ∈ fail maxA base nowt jq jid msg db, j'.id = j.id ∧
        j'.last_error = some msg ∧ (j'.status = .error ∨ j'.status = .queued)) := by
  refine ⟨?_, ?_, ?_⟩
  · intro now db j hj hterm
    rcases dequeue_snd now db with h1 | ⟨jid, h1⟩
    · rw [h1]; exact hj
    · rw [h1]
      have hc : (j.id == jid && j.status == Status.queued) = false := by
        rcases hterm with h2 | h2 <;> simp [h2]
      refine List.mem_map.mpr ⟨j, hj, ?_⟩
      simp only [hc, Bool.false_eq_true, if_false]
  · intro parse jid r db j hj hid
    refine List.mem_map.mpr ⟨j, hj, ?_⟩
    simp [hid]
  · intro maxA base nowt jq jid msg db j hj hid
    unfold fail
    dsimp only
    split
    · refine ⟨_, List.mem_map.mpr ⟨j, hj, rfl⟩, ?_, ?_, ?_⟩ <;> simp [hid]
    · refine ⟨_, List.mem_map.mpr ⟨j, hj, rfl⟩, ?_, ?_, ?_⟩ <;> simp [hid]

open sqlite_queue in
/-- Witness for C5 on a table holding one `error` job: `dequeue` leaves it
alone, while `finish` and `fail` both modify it. -/
theorem terminal_rows_and_unconditional_updates_witness :
    jobErr ∈ (dequeue 0 [jobErr]).2 ∧
    { jobErr with status := Status.done,
                  result := some (normalize_result_for_storage (fun _ => none) (.json .null)),
                  next_run_at := none } ∈ finish (fun _ => none) 1 (.json .null) [jobErr] ∧
    (∃ j' ∈ fail 3 2 0 0 1 "m" [jobErr], j'.id = jobErr.id ∧
      j'.last_error = some "m" ∧ (j'.status = .error ∨ j'.status = .queued)) :=
  ⟨terminal_rows_and_unconditional_updates.1 0 [jobErr] jobErr
      (List.mem_singleton.mpr rfl) (Or.inr rfl),
   terminal_rows_and_unconditional_updates.2.1 (fun _ => none) 1 (.json .null)
      [jobErr] jobErr (List.mem_singleton.mpr rfl) rfl,
   terminal_rows_and_unconditional_updates.2.2 3 2 0 0 1 "m"
      [jobErr] jobErr (List.mem_singleton.mpr rfl) rfl⟩

open sqlite_queue in
/-- Counterexample for C5 as stated: calling `finish` on a job whose status
is the terminal `error` flips it to `done` — a subsequent queue operation
does change a terminal job's status. -/
theorem terminal_states_cex :
    finish (fun _ => none) 1 (.json .null) [jobErr] =
      [⟨1, "t", .obj [], .done, some .null, 0, 0, none, none⟩] ∧
    jobErr.status = Status.error ∧ Status.done ≠ Status.error :=
  ⟨rfl, rfl, by decide⟩

open sqlite_queue in
/-- C6 (amended): after `id = enqueue(t, p)` with a non-empty task and an
object payload, `load(id).task` equals `t` exactly — the queue stores the
task verbatim, with no lowercasing or trimming — and `load(id).payload` is
JSON-equal to `p`. -/
theorem enqueue_load_roundtrip (t : String) (p : Json) (prio : Int)
    (nb : Option Int) (db db' : List Job) (nid : Int)
    (ht : t ≠ "") (hp : isObj p = true)
    (henq : enqueue t p prio nb db = .ok (db', nid)) :
    ∃ l, load nid db' = some l ∧ l.task = t ∧ l.payload = p := by
  unfold enqueue at henq
  rw [if_neg ht] at henq
  dsimp only at henq
  injection henq with h'
  injection h' with h1 h2
  subst h1
  subst h2
  obtain ⟨kvs, rfl⟩ : ∃ kvs, p = Json.obj kvs := by
    cases p <;> first | exact ⟨_, rfl⟩ | simp [isObj] at hp
  have hfresh : ∀ x ∈ db, ((fun r => r.id == nextId db) x) = false := by
    intro x hx
    have h1 := mem_foldr_max hx
    have h2 : x.id ≠ nextId db := by
      unfold nextId at *
      omega
    simpa using h2
  unfold load
  rw [find?_append_of_none hfresh]
  rw [List.find?_cons_of_pos _ (by simp)]
  refine ⟨_, rfl, rfl, ?_⟩
  show (if pyFalsy (if pyFalsy (Json.obj kvs) then Json.obj [] else Json.obj kvs)
      then Json.obj [] else
        (if pyFalsy (Json.obj kvs) then Json.obj [] else Json.obj kvs)) = Json.obj kvs
  cases hkv : kvs.isEmpty with
  | true =>
    rw [List.isEmpty_iff.mp hkv]
    simp [pyFalsy]
  | false =>
    simp [pyFalsy, hkv]

open sqlite_queue in
/-- Witness for C6: enqueueing task `"T"` with payload `{"k": 1}` into an
empty table and loading id 1 returns the task and payload unchanged. -/
theorem enqueue_load_roundtrip_witness :
    ∃ l, load 1 [⟨1, "T", .obj [("k", .num 1)], .queued, none, 0, 0, none, none⟩] =
        some l ∧ l.task = "T" ∧ l.payload = Json.obj [("k", .num 1)] :=
  enqueue_load_roundtrip "T" (Json.obj [("k", .num 1)]) 0 none [] _ 1
    (by decide) rfl rfl

open sqlite_queue in
/-- Counterexample for C6 as stated: enqueueing the task `"Plan"` stores it
verbatim, so `load(id).task` is `"Plan"`, not the claim's
`lower(trim("Plan")) = "plan"`. -/
theorem enqueue_task_not_normalized_cex :
    enqueue "Plan" (Json.obj [("k", Json.num 1)]) 0 none [] =
      .ok ([⟨1, "Plan", .obj [("k", .num 1)], .queued, none, 0, 0, none, none⟩], 1) ∧
    load 1 [⟨1, "Plan", .obj [("k", .num 1)], .queued, none, 0, 0, none, none⟩] =
      some ⟨1, "Plan", .obj [("k", .num 1)], .queued, none, 0, 0, none, none⟩ ∧
    claimTaskNorm "Plan" = "plan" ∧ ("Plan" : String) ≠ "plan" :=
  ⟨rfl, rfl, by decide, by decide⟩

open sqlite_queue in
/-- C7 (amended): in the worker loop, a result *returned* by the handler —
whatever its `ok` field holds — is recorded with `finish`, marking the job
`done` with the normalised result; `fail` (attempts increment, requeue or
terminal error) is invoked only when the handler raises. -/
theorem worker_finishes_any_returned_result (parse : String → Option Json)
    (maxA base nowt : Int) (jq : ℚ) (jid : Int) (r : Json) (e : String)
    (db : List Job) (j : Job)
    (hfind : db.find? (fun x => x.id == jid) = some j) :
    (worker.handleOutcome parse maxA base nowt jq jid (.ok r) db).find?
        (fun x => x.id == jid) =
      some { j with status := Status.done,
                    result := some (normalize_result_for_storage parse (.json r)),
                    next_run_at := none } ∧
    ∃ j', (worker.handleOutcome parse maxA base nowt jq jid (.error e) db).find?
        (fun x => x.id == jid) = some j' ∧
      j'.attempts = j.attempts + 1 ∧ j'.last_error = some e ∧
      (j'.status = .error ∨ j'.status = .queued) := by
  have hpj : (j.id == jid) = true := by simpa using List.find?_some hfind
  constructor
  · show (finish parse jid (.json r) db).find? (fun x => x.id == jid) = _
    unfold finish
    rw [find?_map_id_pred (fun x => by by_cases hx : (x.id == jid) = true <;> simp [hx])
      db jid, hfind]
    dsimp only [Option.map]
    rw [if_pos hpj]
  · show ∃ j', (fail maxA base nowt jq jid e db).find? (fun x => x.id == jid) = some j' ∧ _
    unfold fail
    rw [hfind]
    dsimp only
    split
    · refine ⟨{ j with
                  status := .error,
                  result := some (errEnvelope e (j.attempts + 1)),
                  attempts := j.attempts + 1,
                  last_error := some e,
                  next_run_at := none }, ?_, rfl, rfl, Or.inl rfl⟩
      rw [find?_map_id_pred (fun x => by by_cases hx : (x.id == jid) = true <;> simp [hx])
        db jid, hfind]
      dsimp only [Option.map]
      rw [if_pos hpj]
    · refine ⟨{ j with
                  status := .queued,
                  attempts := j.attempts + 1,
                  last_error := some e,
                  next_run_at := some (nowt + next_delay base j.attempts jq) },
          ?_, rfl, rfl, Or.inr rfl⟩
      rw [find?_map_id_pred (fun x => by by_cases hx : (x.id == jid) = true <;> simp [hx])
        db jid, hfind]
      dsimp only [Option.map]
      rw [if_pos hpj]

open sqlite_queue in
/-- Witness for C7 on a claimed job: a returned result and a raised
exception, at concrete arguments. -/
theorem worker_finishes_any_returned_result_witness :
    (worker.handleOutcome (fun _ => none) 3 2 0 0 1
        (.ok (.obj [("ok", .bool false), ("error", .str "boom")])) [jobP]).find?
        (fun x => x.id == 1) =
      some { jobP with status := Status.done,
                       result := some (normalize_result_for_storage (fun _ => none)
                         (.json (.obj [("ok", .bool false), ("error", .str "boom")]))),
                       next_run_at := none } ∧
    ∃ j', (worker.handleOutcome (fun _ => none) 3 2 0 0 1 (.error "E") [jobP]).find?
        (fun x => x.id == 1) = some j' ∧
      j'.attempts = jobP.attempts + 1 ∧ j'.last_error = some "E" ∧
      (j'.status = .error ∨ j'.status = .queued) :=
  worker_finishes_any_returned_result (fun _ => none) 3 2 0 0 1
    (.obj [("ok", .bool false), ("error", .str "boom")]) "E" [jobP] jobP rfl

open sqlite_queue in
/-- Counterexample for C7 as stated: a handler *returning*
`{ok: false, error: "boom"}` is passed to `finish` — the job ends `done`
with `attempts` untouched, not `queued`/`error` with `attempts`
incremented as `fail(id, result.error)` would produce. -/
theorem worker_ok_false_not_failed_cex :
    worker.handleOutcome (fun _ => none) 3 2 0 0 1
        (.ok (.obj [("ok", .bool false), ("error", .str "boom")])) [jobP] =
      [⟨1, "t", .obj [], .done,
        some (.obj [("ok", .bool false), ("error", .str "boom")]), 0, 0, none, none⟩] ∧
    Status.done ≠ Status.queued ∧ Status.done ≠ Status.error ∧ ((0 : Int) ≠ 0 + 1) :=
  ⟨rfl, by decide, by decide, by decide⟩

open worker_entry in
/-- C8 (amended): `_dispatch` lowercases and trims the task name and never
propagates a handler exception — a thrown error yields
`{ok: false, agent: name, error: str(e), data: {}}` and a successful call
yields `{"ok": True, "agent": name, **out}` — but an unregistered name is
answered with the inline envelope
`{ok: false, agent: null, error: "unknown task: <name>", data: {}}` and no
handler (in particular not the registered `unknown` sentinel, which would
carry `agent: name` and `data: payload`) is invoked. -/
theorem dispatch_inline_unknown_and_traps
    (reg : String → Option worker_entry.Handler) (t : String) (p : Json) :
    (reg (pyStrip (pyLower t)) = none →
      dispatch reg t p =
        .obj [("ok", .bool false), ("agent", .null),
              ("error", .str ("unknown task: " ++ pyStrip (pyLower t))),
              ("data", .obj [])] ∧
      dispatchSpecFallback reg t p =
        .obj [("ok", .bool false), ("agent", .str (pyStrip (pyLower t))),
              ("error", .str ("unknown task: " ++ pyStrip (pyLower t))),
              ("data", p)]) ∧
    (∀ h out, reg (pyStrip (pyLower t)) = some h →
      h (pyStrip (pyLower t)) p = .ok out →
      dispatch reg t p =
        .obj (dictUnion [("ok", .bool true), ("agent", .str (pyStrip (pyLower t)))]
          (ensureDictOut out))) ∧
    (∀ h e, reg (pyStrip (pyLower t)) = some h →
      h (pyStrip (pyLower t)) p = .error e →
      dispatch reg t p =
        .obj [("ok", .bool false), ("agent", .str (pyStrip (pyLower t))),
              ("error", .str e), ("data", .obj [])]) := by
  refine ⟨fun hreg => ⟨?_, ?_⟩, fun h out hreg hok => ?_, fun h e hreg herr => ?_⟩
  · unfold dispatch
    dsimp only
    rw [hreg]
  · unfold dispatchSpecFallback
    dsimp only
    rw [hreg]
    rfl
  · unfold dispatch
    dsimp only
    rw [hreg]
    dsimp only
    rw [hok]
  · unfold dispatch
    dsimp only
    rw [hreg]
    dsimp only
    rw [herr]

open worker_entry in
/-- Witness for C8: an unregistered name against the sentinel-only
registry, a succeeding handler, and a raising handler. -/
theorem dispatch_inline_unknown_and_traps_witness :
    (dispatch regW "nope" (Json.obj [("x", .num 1)]) =
        .obj [("ok", .bool false), ("agent", .null),
              ("error", .str ("unknown task: " ++ pyStrip (pyLower "nope"))),
              ("data", .obj [])] ∧
      dispatchSpecFallback regW "nope" (Json.obj [("x", .num 1)]) =
        .obj [("ok", .bool false), ("agent", .str (pyStrip (pyLower "nope"))),
              ("error", .str ("unknown task: " ++ pyStrip (pyLower "nope"))),
              ("data", Json.obj [("x", .num 1)])]) ∧
    dispatch regOk " Echo " (Json.obj []) =
      .obj (dictUnion [("ok", .bool true), ("agent", .str (pyStrip (pyLower " Echo ")))]
        (ensureDictOut (.num 7))) ∧
    dispatch regErr "t" (Json.obj []) =
      .obj [("ok", .bool false), ("agent", .str (pyStrip (pyLower "t"))),
            ("error", .str "boom"), ("data", .obj [])] :=
  ⟨(dispatch_inline_unknown_and_traps regW "nope" (Json.obj [("x", .num 1)])).1 rfl,
   (dispatch_inline_unknown_and_traps regOk " Echo " (Json.obj [])).2.1
      (fun _ _ => .ok (.num 7)) (.num 7) rfl rfl,
   (dispatch_inline_unknown_and_traps regErr "t" (Json.obj [])).2.2
      (fun _ _ => .error "boom") "boom" rfl rfl⟩

open worker_entry in
/-- Counterexample for C8 as stated: dispatching the unregistered name
`"nope"` (with the `unknown` sentinel registered, as `services/agents.py`
guarantees) returns the inline envelope with `agent: null` and `data: {}`,
which differs from the result of resolving-with-fallback to the sentinel
handler (`agent: "nope"`, `data: payload`). -/
theorem dispatch_no_sentinel_fallback_cex :
    dispatch regW "nope" (Json.obj [("x", Json.num 1)]) =
      .obj [("ok", .bool false), ("agent", .null),
            ("error", .str "unknown task: nope"), ("data", .obj [])] ∧
    dispatchSpecFallback regW "nope" (Json.obj [("x", Json.num 1)]) =
      .obj [("ok", .bool false), ("agent", .str "nope"),
            ("error", .str "unknown task: nope"),
            ("data", .obj [("x", .num 1)])] ∧
    Json.obj [("ok", .bool false), ("agent", .null),
              ("error", .str "unknown task: nope"), ("data", .obj [])] ≠
      Json.obj [("ok", .bool false), ("agent", .str "nope"),
                ("error", .str "unknown task: nope"),
                ("data", .obj [("x", .num 1)])] := by
  refine ⟨rfl, rfl, fun h => ?_⟩
  injection h with h1
  injection h1 with _ h2
  injection h2 with hhd _
  injection hhd with _ hagent
  exact Json.noConfusion hagent

/-- C9 (amended): `POST /tasks` does not substitute `plan` for an empty or
missing task: with `TASK_DB` configured, a request whose stripped task name
is empty reaches `enqueue`, which raises, and the handler surfaces HTTP
500 with nothing enqueued; a non-empty task is enqueued and answered
`200` with its `job_id`. -/
theorem post_tasks_no_plan_default (tOpt : Option String) (p : Json)
    (db : List Job) :
    (worker_entry.pyStrip (tOpt.getD "") = "" →
      app_server.post_task true tOpt p db = (500, none, db)) ∧
    (worker_entry.pyStrip (tOpt.getD "") ≠ "" →
      app_server.post_task true tOpt p db =
        (200, some (sqlite_queue.nextId db),
          db ++ [⟨sqlite_queue.nextId db, worker_entry.pyStrip (tOpt.getD ""),
            (if pyFalsy p then Json.obj [] else p), .queued, none, 0, 0, none,
            none⟩])) := by
  constructor
  · intro hempty
    unfold app_server.post_task
    dsimp only
    rw [hempty]
    rfl
  · intro hne
    cases hf : pyFalsy p with
    | true =>
      unfold app_server.post_task
      dsimp only
      rw [hf]
      unfold sqlite_queue.enqueue
      rw [if_neg hne]
      rfl
    | false =>
      have hpay : (if pyFalsy p = true then Json.obj [] else p) = p := by
        rw [hf]; simp
      unfold app_server.post_task
      dsimp only
      rw [hpay]
      unfold sqlite_queue.enqueue
      dsimp only
      rw [hpay, if_neg hne]
      rfl

/-- Witness for C9: a whitespace-only task yields 500; the task `"x"` is
enqueued with job id 1 and answered 200. -/
theorem post_tasks_no_plan_default_witness :
    app_server.post_task true (some " ") (Json.obj []) [] = (500, none, []) ∧
    app_server.post_task true (some "x") (Json.obj []) [] =
      (200, some (sqlite_queue.nextId []),
        [] ++ [⟨sqlite_queue.nextId [], worker_entry.pyStrip ((some "x").getD ""),
          (if pyFalsy (Json.obj []) then Json.obj [] else Json.obj []), .queued,
          none, 0, 0, none, none⟩]) :=
  ⟨(post_tasks_no_plan_default (some " ") (Json.obj []) []).1 (by decide),
   (post_tasks_no_plan_default (some "x") (Json.obj []) []).2 (by decide)⟩

/-- Counterexample for C9 as stated: a `POST /tasks` body with an empty
task is answered 500, not 200 with a `plan` job. -/
theorem post_tasks_empty_task_cex :
    app_server.post_task true (some "") (Json.obj []) [] = (500, none, []) ∧
    (500 : Nat) ≠ 200 :=
  ⟨rfl, by decide⟩

namespace sqlite_queue

lemma dequeue_single {nowt : Int} {j : Job} (helig : eligible nowt j = true) :
    dequeue nowt [j] = (some j.id, [{ j with status := .in_progress }]) := by
  have hq := eligible_status helig
  unfold dequeue dequeueFrom selectJob
  have hfil : List.filter (eligible nowt) [j] = [j] := by simp [helig]
  rw [hfil]
  show (match some j with
    | none => (none, [j])
    | some j0 =>
        let db3 := applyClaim j0.id [j]
        if claimCount j0.id [j] = 0 then (none, db3) else (some j0.id, db3)) = _
  dsimp only
  have hcnt : claimCount j.id [j] ≠ 0 := by simp [claimCount, hq]
  rw [if_neg hcnt]
  have hap : applyClaim j.id [j] = [{ j with status := .in_progress }] := by
    simp [applyClaim, hq]
  rw [hap]

end sqlite_queue

namespace worker

lemma attemptCycle_nonqueued {maxA base nowt : Int} {jq : ℚ} {j : Job}
    (hst : j.status ≠ .queued) :
    attemptCycle maxA base nowt jq [j] = [j] := by
  have hfil : List.filter (sqlite_queue.eligible nowt) [j] = [] := by
    simp [sqlite_queue.eligible, beq_eq_false_iff_ne.mpr hst]
  unfold attemptCycle sqlite_queue.dequeue sqlite_queue.dequeueFrom
    sqlite_queue.selectJob
  rw [hfil]
  rfl

lemma runCycles_nonqueued {maxA base : Int} {jq : Nat → ℚ} {j : Job}
    (hst : j.status ≠ .queued) (n : Nat) :
    runCycles maxA base jq n [j] = [j] := by
  induction n generalizing jq with
  | zero => rfl
  | succ m ih =>
    show runCycles maxA base jq m (attemptCycle maxA base _ (jq m) [j]) = [j]
    rw [attemptCycle_nonqueued hst]
    exact ih

lemma dequeue_single_mid {nowt : Int} {k a : Int} {res : Option Json}
    {nr : Option Int} {le : Option String}
    (helig : sqlite_queue.eligible nowt (failN_mid k a res nr le) = true) :
    sqlite_queue.dequeue nowt [failN_mid k a res nr le] =
      (some 1, [⟨1, "fail_n", failPayload k, .in_progress, res, a, 0, nr, le⟩]) := by
  rw [sqlite_queue.dequeue_single helig]
  rfl

lemma attemptCycle_requeue {base : Int} {jq : ℚ} {k a : Int} {res : Option Json}
    {nr : Option Int} {le : Option String} {nowt : Int}
    (helig : sqlite_queue.eligible nowt (failN_mid k a res nr le) = true)
    (hak : a < k) (ha2 : a + 1 < 3) :
    attemptCycle 3 base nowt jq [failN_mid k a res nr le] =
      [failN_mid k (a + 1) res
        (some (nowt + sqlite_queue.next_delay base a jq)) (some (failMsg k a))] := by
  unfold attemptCycle
  rw [dequeue_single_mid helig]
  show handleOutcome (fun _ => none) 3 base nowt jq 1
      (if a < k then .error (failMsg k a) else .ok (okObj a))
      [⟨1, "fail_n", failPayload k, .in_progress, res, a, 0, nr, le⟩] = _
  rw [if_pos hak]
  show sqlite_queue.fail 3 base nowt jq 1 (failMsg k a)
      [⟨1, "fail_n", failPayload k, .in_progress, res, a, 0, nr, le⟩] = _
  show (if max 1 (3:Int) ≤ a + 1
      then _
      else [failN_mid k (a + 1) res
        (some (nowt + sqlite_queue.next_delay base a jq)) (some (failMsg k a))]) = _
  rw [if_neg (by omega : ¬ max 1 (3:Int) ≤ a + 1)]

lemma attemptCycle_terminal {base : Int} {jq : ℚ} {k a : Int} {res : Option Json}
    {nr : Option Int} {le : Option String} {nowt : Int}
    (helig : sqlite_queue.eligible nowt (failN_mid k a res nr le) = true)
    (hak : a < k) (ha3 : 3 ≤ a + 1) :
    attemptCycle 3 base nowt jq [failN_mid k a res nr le] =
      [⟨1, "fail_n", failPayload k, .error,
        some (sqlite_queue.errEnvelope (failMsg k a) (a + 1)), a + 1, 0, none,
        some (failMsg k a)⟩] := by
  unfold attemptCycle
  rw [dequeue_single_mid helig]
  show handleOutcome (fun _ => none) 3 base nowt jq 1
      (if a < k then .error (failMsg k a) else .ok (okObj a))
      [⟨1, "fail_n", failPayload k, .in_progress, res, a, 0, nr, le⟩] = _
  rw [if_pos hak]
  show sqlite_queue.fail 3 base nowt jq 1 (failMsg k a)
      [⟨1, "fail_n", failPayload k, .in_progress, res, a, 0, nr, le⟩] = _
  show (if max 1 (3:Int) ≤ a + 1
      then [(⟨1, "fail_n", failPayload k, .error,
        some (sqlite_queue.errEnvelope (failMsg k a) (a + 1)), a + 1, 0, none,
        some (failMsg k a)⟩ : Job)]
      else _) = _
  rw [if_pos (by omega : max 1 (3:Int) ≤ a + 1)]

lemma attemptCycle_finish {base : Int} {jq : ℚ} {k a : Int} {res : Option Json}
    {nr : Option Int} {le : Option String} {nowt : Int}
    (helig : sqlite_queue.eligible nowt (failN_mid k a res nr le) = true)
    (hka : k ≤ a) :
    attemptCycle 3 base nowt jq [failN_mid k a res nr le] =
      [⟨1, "fail_n", failPayload k, .done, some (okObj a), a, 0, none, le⟩] := by
  unfold attemptCycle
  rw [dequeue_single_mid helig]
  show handleOutcome (fun _ => none) 3 base nowt jq 1
      (if a < k then .error (failMsg k a) else .ok (okObj a))
      [⟨1, "fail_n", failPayload k, .in_progress, res, a, 0, nr, le⟩] = _
  rw [if_neg (by omega : ¬ a < k)]
  rfl

lemma eligible_readyTime_mid (k a : Int) (res : Option Json) (nr : Option Int)
    (le : Option String) :
    sqlite_queue.eligible (readyTime [failN_mid k a res nr le])
      (failN_mid k a res nr le) = true := by
  cases nr with
  | none => rfl
  | some v =>
    have hv : v ≤ readyTime [failN_mid k a res (some v) le] := le_max_right 0 v
    simp [sqlite_queue.eligible, failN_mid, hv]
    exact hv

lemma runCycles_failN_done {base : Int} {jq : Nat → ℚ} {k : Int} (hk3 : k ≤ 2) :
    ∀ (n : Nat) (a : Int) (res : Option Json) (nr : Option Int)
      (le : Option String), 0 ≤ a → a ≤ k → (k - a).toNat < n →
      ∃ le', runCycles 3 base jq n [failN_mid k a res nr le] =
        [failN_done k le'] := by
  intro n
  induction n with
  | zero =>
    intro a res nr le ha0 hak hn
    exact absurd hn (by omega)
  | succ m ih =>
    intro a res nr le ha0 hak hn
    by_cases hlt : a < k
    · have ha2 : a + 1 < 3 := by omega
      simp only [runCycles]
      rw [attemptCycle_requeue (eligible_readyTime_mid k a res nr le) hlt ha2]
      exact ih (a + 1) res _ _ (by omega) (by omega) (by omega)
    · have hka : k ≤ a := by omega
      simp only [runCycles]
      rw [attemptCycle_finish (eligible_readyTime_mid k a res nr le) hka]
      rw [runCycles_nonqueued (by simp) m]
      have hae : a = k := le_antisymm hak hka
      subst hae
      exact ⟨le, rfl⟩

lemma runCycles_failN_err {base : Int} {jq : Nat → ℚ} {k : Int} (hk3 : 3 ≤ k) :
    ∀ (n : Nat) (a : Int) (res : Option Json) (nr : Option Int)
      (le : Option String), 0 ≤ a → a ≤ 2 → (2 - a).toNat < n →
      runCycles 3 base jq n [failN_mid k a res nr le] = [failN_err k] := by
  intro n
  induction n with
  | zero =>
    intro a res nr le ha0 ha2 hn
    exact absurd hn (by omega)
  | succ m ih =>
    intro a res nr le ha0 ha2 hn
    have hlt : a < k := by omega
    by_cases h2 : a + 1 < 3
    · simp only [runCycles]
      rw [attemptCycle_requeue (eligible_readyTime_mid k a res nr le) hlt h2]
      exact ih (a + 1) res _ _ (by omega) (by omega) (by omega)
    · have ha3 : 3 ≤ a + 1 := by omega
      simp only [runCycles]
      rw [attemptCycle_terminal (eligible_readyTime_mid k a res nr le) hlt ha3]
      rw [runCycles_nonqueued (by simp) m]
      have hae : a = 2 := by omega
      subst hae
      rfl

end worker

open worker in
/-- C3 (amended): for the `fail_n` job whose handler throws on its first
`k` invocations and succeeds on the next, under `MAX_ATTEMPTS = 3`: if
`k < 3` the job ends terminally `done` with `attempts == k` — `finish`
records the success without incrementing `attempts`, so the final count is
the number of failures, not `k + 1`; if `k ≥ 3` it ends terminally `error`
with `attempts == 3`. Terminal states persist across further cycles. -/
theorem failN_retry_schedule (k base : Int) (jq : Nat → ℚ) (n : Nat)
    (hk : 0 ≤ k) :
    (k < 3 → k.toNat < n →
      ∃ le', runCycles 3 base jq n [failN_job0 k] = [failN_done k le']) ∧
    (3 ≤ k → 3 ≤ n →
      runCycles 3 base jq n [failN_job0 k] = [failN_err k]) := by
  constructor
  · intro hk3 hn
    exact runCycles_failN_done (by omega) n 0 none none none (le_refl 0) hk
      (by omega)
  · intro hk3 hn
    exact runCycles_failN_err hk3 n 0 none none none (le_refl 0) (by omega)
      (by omega)

open worker in
/-- Witness for C3: `fail_times = 1` finishes `done` within 2 cycles with
`attempts = 1`; `fail_times = 5` errors out within 3 cycles with
`attempts = 3`. -/
theorem failN_retry_schedule_witness :
    (∃ le', runCycles 3 2 (fun _ => 0) 2 [failN_job0 1] = [failN_done 1 le']) ∧
    runCycles 3 2 (fun _ => 0) 3 [failN_job0 5] = [failN_err 5] :=
  ⟨(failN_retry_schedule 1 2 (fun _ => 0) 2 (by decide)).1 (by decide) (by decide),
   (failN_retry_schedule 5 2 (fun _ => 0) 3 (by decide)).2 (by decide) (by decide)⟩

open worker in
/-- Counterexample for C3 as stated: with `fail_times = 0` the handler
succeeds on its first invocation and the job ends `done` with
`attempts = 0`, not the claim's `k + 1 = 1` — `finish` never increments
`attempts`. -/
theorem failN_attempts_cex :
    runCycles 3 2 (fun _ => 0) 1 [failN_job0 0] =
      [⟨1, "fail_n", failPayload 0, .done, some (okObj 0), 0, 0, none, none⟩] ∧
    (0 : Int) ≠ 0 + 1 := by
  constructor
  · simp only [runCycles]
    rw [show failN_job0 0 = failN_mid 0 0 none none none from rfl]
    rw [attemptCycle_finish (eligible_readyTime_mid 0 0 none none none) (le_refl 0)]
  · decide

end Velu
